import Mathlib

/-!
Shallow embedding of the session relay in `src/backend/src/app.ts` and
`src/backend/src/session.ts` (class `RTSession`), together with proofs of the
behavioural properties of its message handlers, content-stream handlers and
upstream event loop.

Modelling conventions:
* A JavaScript exception that a handler throws (and possibly re-throws through
  its `catch`-log-`throw` blocks) is modelled as an `Except.error` result.
  An error escaping `startEventLoop` / `initialize` is never caught by the
  session code, so an `.error` outcome of the whole loop models the session
  terminating abnormally (the rejection escapes the session relay).
* Lazy async iterators (`textChunks()`, `audioChunks()`, `transcriptChunks()`,
  `client.events()`, response items, item contents) are modelled by the finite
  list of values they deliver; an iterator that raises after delivering a
  prefix is modelled by that prefix plus a `fails` flag.
* The nondeterministic interleaving of the two concurrent branches of
  `handleAudioContent` (`Promise.all`) is modelled by an explicit schedule of
  booleans choosing which branch emits next.
-/

/-- Model of a parsed JSON value: a possible result of a successful
`JSON.parse` on a client text frame. -/
inductive Json where
  | null
  | bool (b : Bool)
  | num (n : Int)
  | str (s : String)
  | arr (elems : List Json)
  | obj (fields : List (String × Json))

/-- Errors of the relay, per the error taxonomy: `JSON.parse` failure,
a TypeError from property access on `null`, and the upstream failures of
`sendAudio` / `sendItem` / `generateResponse`, chunk streams, `configure`
and `waitForCompletion`. -/
inductive RelayError where
  | malformedMessage
  | typeError
  | upstreamSendError
  | upstreamStreamError
  | upstreamConfigurationError
  | inputAudioWaitError
deriving DecidableEq, Repr

/-- JavaScript property access `v.k` on a parsed JSON value: throws a
TypeError on `null`, looks the key up on objects (`none` models
`undefined` for an absent key), and yields `undefined` on the other
primitives and arrays. -/
def jsGetField : Json → String → Except RelayError (Option Json)
  | .null, _ => .error .typeError
  | .obj fields, key => .ok (fields.lookup key)
  | _, _ => .ok none

/-- Outbound messages sent to the client over the WebSocket: the JSON wire
messages of `session.ts` (`TextDelta`, `Transcription`, the `Connected`,
`SpeechStarted` and `TextDone` control messages) plus raw binary audio
frames sent by `sendBinary`. -/
inductive OutMsg where
  | textDelta (id : String) (delta : String)
  | transcriptionMsg (id : String) (text : String)
  | connected (greeting : String)
  | speechStarted
  | textDone (id : String)
  | binaryFrame (bytes : List Nat)
deriving DecidableEq, Repr

/-- The Content Reference of `session.ts`:
`` `${content.itemId}-${content.contentIndex}` ``. -/
def contentRef (itemId : String) (contentIndex : Nat) : String :=
  itemId ++ "-" ++ toString contentIndex

/-- A text content entry (`RTTextContent`): its item id and content index, and
its `textChunks()` iterator modelled by the chunks it delivers before either
ending normally (`fails = false`) or raising (`fails = true`). -/
structure RTTextContent where
  itemId : String
  contentIndex : Nat
  chunks : List String
  fails : Bool
deriving DecidableEq, Repr

/-- `RTSession.handleTextContent`: drain `textChunks()`, sending one
`text_delta` per chunk carrying the Content Reference, then send one
`text_done` with the same reference; an error while draining is logged and
re-thrown, so no `text_done` is sent in that case. -/
def handleTextContent (c : RTTextContent) : List OutMsg × Except RelayError Unit :=
  let contentId := contentRef c.itemId c.contentIndex
  let deltas := c.chunks.map fun text => OutMsg.textDelta contentId text
  if c.fails then
    (deltas, .error .upstreamStreamError)
  else
    (deltas ++ [OutMsg.textDone contentId], .ok ())

/-- An audio content entry (`RTAudioContent`): its item id and content index,
its `audioChunks()` iterator (binary chunks delivered, plus whether it raises
after them) and its `transcriptChunks()` iterator (text fragments delivered,
plus whether it raises after them). -/
structure RTAudioContent where
  itemId : String
  contentIndex : Nat
  audioChunks : List (List Nat)
  audioFails : Bool
  transcriptChunks : List String
  transcriptFails : Bool
deriving DecidableEq, Repr

/-- The `handleAudioChunks` branch of `RTSession.handleAudioContent`: forward
every binary chunk to the client as a binary frame, in order. -/
def handleAudioChunks (c : RTAudioContent) : List OutMsg × Except RelayError Unit :=
  (c.audioChunks.map fun chunk => OutMsg.binaryFrame chunk,
   if c.audioFails then .error .upstreamStreamError else .ok ())

/-- The `handleAudioTranscript` branch of `RTSession.handleAudioContent`:
forward every transcript fragment as a `text_delta` carrying the Content
Reference, then send one `text_done` with the same reference. -/
def handleAudioTranscript (c : RTAudioContent) : List OutMsg × Except RelayError Unit :=
  let contentId := contentRef c.itemId c.contentIndex
  let deltas := c.transcriptChunks.map fun chunk => OutMsg.textDelta contentId chunk
  if c.transcriptFails then
    (deltas, .error .upstreamStreamError)
  else
    (deltas ++ [OutMsg.textDone contentId], .ok ())

/-- One interleaving of two emission sequences, chosen by a schedule of
booleans (`true` = next message comes from the left branch): models the
runtime's nondeterministic scheduling of the two `Promise.all` branches. -/
def interleave : List Bool → List α → List α → List α
  | [], xs, ys => xs ++ ys
  | true :: sched, xs, ys =>
    match xs with
    | [] => ys
    | x :: xs => x :: interleave sched xs ys
  | false :: sched, xs, ys =>
    match ys with
    | [] => xs
    | y :: ys => y :: interleave sched xs ys

/-- `RTSession.handleAudioContent`: run the audio-frame branch and the
transcript branch concurrently (`Promise.all`); the client-observed message
sequence is an interleaving of the two branch sequences, and a failure of
either branch is logged and re-thrown. -/
def handleAudioContent (sched : List Bool) (c : RTAudioContent) :
    List OutMsg × Except RelayError Unit :=
  let audio := handleAudioChunks c
  let transcript := handleAudioTranscript c
  (interleave sched audio.1 transcript.1,
   match audio.2 with
   | .error e => .error e
   | .ok _ =>
     match transcript.2 with
     | .error e => .error e
     | .ok _ => .ok ())

/-- An `input_audio` upstream event (`RTInputAudioItem`): the item id, its
recognized transcription once complete (`none` models an `undefined`
transcription), and whether `waitForCompletion()` raises. -/
structure RTInputAudioItem where
  id : String
  transcript : Option String
  waitFails : Bool
deriving DecidableEq, Repr

/-- The JavaScript expression `event.transcription || ""`: the empty string
when the transcription is `undefined` (or itself the falsy `""`). -/
def jsOrEmpty : Option String → String
  | none => ""
  | some s => s

/-- `RTSession.handleInputAudio`: immediately send a `speech_started` control
message, await `waitForCompletion()` (re-throwing its failure), then send one
`transcription` message with the item's id and `event.transcription || ""`. -/
def handleInputAudio (event : RTInputAudioItem) : List OutMsg × Except RelayError Unit :=
  if event.waitFails then
    ([OutMsg.speechStarted], .error .inputAudioWaitError)
  else
    ([OutMsg.speechStarted,
      OutMsg.transcriptionMsg event.id (jsOrEmpty event.transcript)], .ok ())

/-- A content entry of a `message` item, as dispatched by
`RTSession.handleResponse`: `content.type === "text"`, `"audio"` (with the
runtime's branch-interleaving schedule), or any other kind, which is
skipped. -/
inductive ContentEntry where
  | text (c : RTTextContent)
  | audio (sched : List Bool) (c : RTAudioContent)
  | unknown
deriving DecidableEq, Repr

/-- The Content Reference of a content entry (`none` for skipped kinds). -/
def entryRef : ContentEntry → Option String
  | .text c => some (contentRef c.itemId c.contentIndex)
  | .audio _ c => some (contentRef c.itemId c.contentIndex)
  | .unknown => none

/-- Content dispatch of `RTSession.handleResponse`'s inner loop: text entries
to `handleTextContent`, audio entries to `handleAudioContent`, anything else
is skipped. -/
def handleContent : ContentEntry → List OutMsg × Except RelayError Unit
  | .text c => handleTextContent c
  | .audio sched c => handleAudioContent sched c
  | .unknown => ([], .ok ())

/-- An item of a `response` event: a `message` item is a sequence of content
entries; an item of any other type is skipped by `handleResponse`. -/
inductive RTItem where
  | message (contents : List ContentEntry)
  | other
deriving DecidableEq, Repr

/-- Sequential `for await` processing with `await` on each element's handler:
messages accumulate in order, and the first error aborts the loop and
propagates (no later element is processed). -/
def runSeq (f : α → List OutMsg × Except RelayError Unit) :
    List α → List OutMsg × Except RelayError Unit
  | [] => ([], .ok ())
  | a :: as =>
    let first := f a
    match first.2 with
    | .error e => (first.1, .error e)
    | .ok _ =>
      let rest := runSeq f as
      (first.1 ++ rest.1, rest.2)

/-- Item dispatch of `RTSession.handleResponse`: a `message` item's content
entries are processed strictly in order; other item types are skipped. -/
def handleItem : RTItem → List OutMsg × Except RelayError Unit
  | .message contents => runSeq handleContent contents
  | .other => ([], .ok ())

/-- `RTSession.handleResponse`: process the response's items strictly in
order, re-throwing the first failure. -/
def handleResponse (items : List RTItem) : List OutMsg × Except RelayError Unit :=
  runSeq handleItem items

/-- An upstream event from `client.events()`: a `response` event (a sequence
of items) or an `input_audio` event. -/
inductive UpEvent where
  | response (items : List RTItem)
  | inputAudio (event : RTInputAudioItem)
deriving DecidableEq, Repr

/-- Event dispatch of `RTSession.startEventLoop`'s body. -/
def handleEvent : UpEvent → List OutMsg × Except RelayError Unit
  | .response items => handleResponse items
  | .inputAudio event => handleInputAudio event

/-- `RTSession.startEventLoop`: drain `client.events()`, dispatching each
event in order; an error thrown by a handler is logged and re-thrown,
aborting the loop (the rejection escapes the session code, terminating the
session abnormally). -/
def startEventLoop (events : List UpEvent) : List OutMsg × Except RelayError Unit :=
  runSeq handleEvent events

/-- The content entries dispatched while handling one response item. -/
def itemEntries : RTItem → List ContentEntry
  | .message contents => contents
  | .other => []

/-- All content entries dispatched while handling one upstream event. -/
def eventEntries : UpEvent → List ContentEntry
  | .response items => items.flatMap itemEntries
  | .inputAudio _ => []

/-- The Content References of all content streams of a session's event
sequence. -/
def sessionRefs (events : List UpEvent) : List String :=
  (events.flatMap eventEntries).filterMap entryRef

/-- An inbound client WebSocket frame, as seen by `RTSession.handleMessage`:
a binary audio frame, or a text frame represented by the outcome of
`JSON.parse` on it (`none` when the frame is not valid JSON, so the parse
throws). -/
inductive ClientFrame where
  | binary (bytes : List Nat)
  | text (parseOutcome : Option Json)

/-- The result of decoding a client text frame: a `user_message` (with the
value of its `text` field, `none` when absent) or an unrecognized message,
which is ignored. -/
inductive Decoded where
  | userMessage (text : Option Json)
  | unrecognized

/-- The decoding performed by `RTSession.handleTextMessage` (lines 190-195):
`JSON.parse` the frame (throwing `MalformedMessage` on invalid JSON), read
`parsed.type` (throwing a TypeError when the parsed value is `null`), and
compare it with `"user_message"`; any other discriminant — absent, non-string
or unknown — decodes to `unrecognized`. -/
def decodeFrame : Option Json → Except RelayError Decoded
  | none => .error .malformedMessage
  | some parsed =>
    match jsGetField parsed "type" with
    | .error e => .error e
    | .ok discriminant =>
      match discriminant with
      | some (Json.str s) =>
        if s = "user_message" then
          match jsGetField parsed "text" with
          | .error e => .error e
          | .ok text => .ok (.userMessage text)
        else
          .ok .unrecognized
      | _ => .ok .unrecognized

/-- Whether each upstream client call made while handling one client frame
fails (`sendAudio`, `sendItem`, `generateResponse` may each fail
asynchronously). -/
structure UpstreamBehavior where
  sendAudioFails : Bool
  sendItemFails : Bool
  generateResponseFails : Bool
deriving DecidableEq, Repr

/-- The client-visible and upstream-visible state of a session while handling
client frames: audio forwarded via `sendAudio`, user items forwarded via
`sendItem` (each recorded by its `text` field), `generateResponse` calls,
errors logged by `handleMessage`'s catch block, and whether the session has
entered teardown (`handleClose`). -/
structure SessionState where
  sentAudio : List (List Nat)
  sentItems : List (Option Json)
  responseRequests : Nat
  loggedErrors : Nat
  closed : Bool

/-- The state of a freshly created session. -/
def initialState : SessionState :=
  { sentAudio := [], sentItems := [], responseRequests := 0,
    loggedErrors := 0, closed := false }

/-- `RTSession.handleBinaryMessage`: forward the frame's bytes to
`client.sendAudio`, logging and re-throwing its failure. -/
def handleBinaryMessage (beh : UpstreamBehavior) (st : SessionState)
    (bytes : List Nat) : SessionState × Except RelayError Unit :=
  if beh.sendAudioFails then
    (st, .error .upstreamSendError)
  else
    ({ st with sentAudio := st.sentAudio ++ [bytes] }, .ok ())

/-- `RTSession.handleTextMessage`: decode the frame; on a `user_message`,
forward the text as a conversation item via `client.sendItem` and then call
`client.generateResponse`, logging and re-throwing either failure; any other
decoded message is ignored. -/
def handleTextMessage (beh : UpstreamBehavior) (st : SessionState)
    (parseOutcome : Option Json) : SessionState × Except RelayError Unit :=
  match decodeFrame parseOutcome with
  | .error e => (st, .error e)
  | .ok .unrecognized => (st, .ok ())
  | .ok (.userMessage text) =>
    if beh.sendItemFails then
      (st, .error .upstreamSendError)
    else
      let sent := { st with sentItems := st.sentItems ++ [text] }
      if beh.generateResponseFails then
        (sent, .error .upstreamSendError)
      else
        ({ sent with responseRequests := sent.responseRequests + 1 }, .ok ())

/-- `RTSession.handleMessage`: route the frame by `isBinary`; any error
thrown by the inner handler is caught and logged, and handling ends —
the session is not closed and continues to accept frames. -/
def handleMessage (beh : UpstreamBehavior) (st : SessionState)
    (frame : ClientFrame) : SessionState :=
  let inner :=
    match frame with
    | .binary bytes => handleBinaryMessage beh st bytes
    | .text parseOutcome => handleTextMessage beh st parseOutcome
  match inner.2 with
  | .ok _ => inner.1
  | .error _ => { inner.1 with loggedErrors := inner.1.loggedErrors + 1 }

/-- Handle a sequence of client frames, each with the upstream behaviour its
upstream calls encounter. -/
def processFrames (st : SessionState) :
    List (UpstreamBehavior × ClientFrame) → SessionState
  | [] => st
  | (beh, frame) :: rest => processFrames (handleMessage beh st frame) rest

/-- The greeting sent in the `connected` control message. -/
def greetingText : String := "You are now connected to the a expressjs server"

/-- The observable outcome of `RTSession.initialize`: the messages sent to
the client, whether the upstream event loop was started, whether
`client.close()` was called on this path, and the overall result (an
`.error` escapes the un-awaited async call, terminating the session
abnormally without reaching `Active`). -/
structure InitOutcome where
  msgs : List OutMsg
  eventLoopStarted : Bool
  upstreamCloseCalled : Bool
  result : Except RelayError Unit

/-- `RTSession.initialize`: `await client.configure(...)` — a failure throws
out of `initialize` before anything else happens (no `connected` message, no
event loop, no `client.close()`); on success, send the `connected` greeting
and start the event loop on the given upstream events. -/
def sessionInit (configureFails : Bool) (events : List UpEvent) : InitOutcome :=
  if configureFails then
    { msgs := [], eventLoopStarted := false, upstreamCloseCalled := false,
      result := .error .upstreamConfigurationError }
  else
    let loop := startEventLoop events
    { msgs := OutMsg.connected greetingText :: loop.1, eventLoopStarted := true,
      upstreamCloseCalled := false, result := loop.2 }

/-- The outcome of `RTSession.handleClose`: whether `client.close()` was
called and whether a close failure was logged (it is never re-thrown). -/
structure CloseOutcome where
  upstreamCloseCalled : Bool
  errorLogged : Bool
deriving DecidableEq, Repr

/-- `RTSession.handleClose`: release the upstream connection via
`client.close()`; a failure during release is logged, not re-raised. -/
def handleClose (closeFails : Bool) : CloseOutcome :=
  { upstreamCloseCalled := true, errorLogged := closeFails }

/-- The `id` field carried by an outbound message (`none` for messages with
no id: control messages other than `text_done`, and binary frames). -/
def msgId : OutMsg → Option String
  | .textDelta id _ => some id
  | .transcriptionMsg id _ => some id
  | .textDone id => some id
  | .connected _ => none
  | .speechStarted => none
  | .binaryFrame _ => none

/-- Whether an outbound message is a binary audio frame. -/
def isBinaryMsg : OutMsg → Bool
  | .binaryFrame _ => true
  | _ => false

section HelperLemmas

/-- Any interleaving of two sequences is a permutation of their
concatenation. -/
theorem interleave_perm (s : List Bool) (xs ys : List α) :
    List.Perm (interleave s xs ys) (xs ++ ys) := by
  induction s generalizing xs ys with
  | nil => simp [interleave]
  | cons b s ih =>
    cases b with
    | true =>
      cases xs with
      | nil => simp [interleave]
      | cons x xs => simpa [interleave] using (ih xs ys).cons x
    | false =>
      cases ys with
      | nil => simp [interleave]
      | cons y ys =>
        simp only [interleave]
        exact ((ih xs ys).cons y).trans List.perm_middle.symm

/-- Filtering an interleaving by a predicate that holds on the whole left
branch and nowhere on the right branch recovers the left branch, in order. -/
theorem filter_interleave_left (p : α → Bool) (s : List Bool) (xs ys : List α)
    (hx : ∀ x ∈ xs, p x = true) (hy : ∀ y ∈ ys, p y = false) :
    (interleave s xs ys).filter p = xs := by
  induction s generalizing xs ys with
  | nil =>
    simp only [interleave, List.filter_append]
    rw [List.filter_eq_self.mpr hx, List.filter_eq_nil_iff.mpr (by simpa using hy)]
    simp
  | cons b s ih =>
    cases b with
    | true =>
      cases xs with
      | nil =>
        simpa [interleave] using List.filter_eq_nil_iff.mpr (by simpa using hy)
      | cons x xs =>
        have hx1 : p x = true := hx x (List.mem_cons_self x xs)
        simp only [interleave, List.filter_cons, hx1, if_pos]
        rw [ih xs ys (fun a ha => hx a (List.mem_cons_of_mem x ha)) hy]
    | false =>
      cases ys with
      | nil => simpa [interleave] using List.filter_eq_self.mpr hx
      | cons y ys =>
        have hy1 : p y = false := hy y (List.mem_cons_self y ys)
        simp only [interleave, List.filter_cons, hy1]
        simp only [Bool.false_eq_true, if_false]
        exact ih xs ys hx (fun a ha => hy a (List.mem_cons_of_mem y ha))

/-- Filtering an interleaving by a predicate that holds on the whole right
branch and nowhere on the left branch recovers the right branch, in order. -/
theorem filter_interleave_right (p : α → Bool) (s : List Bool) (xs ys : List α)
    (hx : ∀ x ∈ xs, p x = false) (hy : ∀ y ∈ ys, p y = true) :
    (interleave s xs ys).filter p = ys := by
  induction s generalizing xs ys with
  | nil =>
    simp only [interleave, List.filter_append]
    rw [List.filter_eq_nil_iff.mpr (by simpa using hx), List.filter_eq_self.mpr hy]
    simp
  | cons b s ih =>
    cases b with
    | true =>
      cases xs with
      | nil => simpa [interleave] using List.filter_eq_self.mpr hy
      | cons x xs =>
        have hx1 : p x = false := hx x (List.mem_cons_self x xs)
        simp only [interleave, List.filter_cons, hx1]
        simp only [Bool.false_eq_true, if_false]
        exact ih xs ys (fun a ha => hx a (List.mem_cons_of_mem x ha)) hy
    | false =>
      cases ys with
      | nil =>
        simpa [interleave] using List.filter_eq_nil_iff.mpr (by simpa using hx)
      | cons y ys =>
        have hy1 : p y = true := hy y (List.mem_cons_self y ys)
        simp only [interleave, List.filter_cons, hy1, if_pos]
        rw [ih xs ys hx (fun a ha => hy a (List.mem_cons_of_mem y ha))]

end HelperLemmas

/-- C2: for every finite ordered sequence of text chunks delivered by the
upstream for one text content entry (the chunk iterator ends without
raising), the text handler sends one `text_delta` per chunk, with equal
`delta` values in the same order, each carrying the entry's Content
Reference, followed by exactly one `text_done` control message with the same
reference. -/
theorem text_handler_sends_deltas_then_one_done (c : RTTextContent)
    (h : c.fails = false) :
    handleTextContent c =
      (c.chunks.map (fun t => OutMsg.textDelta (contentRef c.itemId c.contentIndex) t)
        ++ [OutMsg.textDone (contentRef c.itemId c.contentIndex)], .ok ()) := by
  simp [handleTextContent, h]

/-- Witness for C2 at the concrete entry of §8's scenario: chunks
`"hi"`, `" there"` for item `item` at content index 0. -/
theorem text_handler_sends_deltas_then_one_done_witness :
    (RTTextContent.mk "item" 0 ["hi", " there"] false).fails = false ∧
    handleTextContent (RTTextContent.mk "item" 0 ["hi", " there"] false) =
      ((["hi", " there"].map
          (fun t => OutMsg.textDelta (contentRef "item" 0) t))
        ++ [OutMsg.textDone (contentRef "item" 0)], .ok ()) :=
  ⟨rfl, text_handler_sends_deltas_then_one_done (RTTextContent.mk "item" 0 ["hi", " there"] false) rfl⟩

/-- C8: for every `input_audio` upstream event whose completion is signalled,
the session first sends a `speech_started` control message (which carries no
reference id), then sends exactly one `transcription` message carrying the
item's identifier and its recognized text; the text field is
`event.transcription || ""`, i.e. the empty string when the transcription is
unavailable, and is never omitted. -/
theorem input_audio_speech_started_then_transcription (event : RTInputAudioItem)
    (h : event.waitFails = false) :
    handleInputAudio event =
      ([OutMsg.speechStarted,
        OutMsg.transcriptionMsg event.id (jsOrEmpty event.transcript)], .ok ()) ∧
    msgId OutMsg.speechStarted = none ∧
    jsOrEmpty none = "" := by
  refine ⟨?_, rfl, rfl⟩
  simp [handleInputAudio, h]

/-- Witness for C8 at a concrete item with an unavailable transcription. -/
theorem input_audio_speech_started_then_transcription_witness :
    (RTInputAudioItem.mk "item-7" none false).waitFails = false ∧
    (handleInputAudio (RTInputAudioItem.mk "item-7" none false) =
      ([OutMsg.speechStarted,
        OutMsg.transcriptionMsg "item-7" (jsOrEmpty none)], .ok ()) ∧
     msgId OutMsg.speechStarted = none ∧
     jsOrEmpty none = "") :=
  ⟨rfl, input_audio_speech_started_then_transcription (RTInputAudioItem.mk "item-7" none false) rfl⟩

/-- C9: every message of one content stream — all `text_delta` messages and
the `text_done` of a text content entry, and likewise of an audio entry's
transcript branch — carries the identical id, the Content Reference
`itemId ++ "-" ++ contentIndex`; in particular for item id `A1` and content
index 2 every such message uses id `"A1-2"`. -/
theorem content_reference_stable_across_stream (c : RTTextContent) (a : RTAudioContent) :
    (∀ m ∈ (handleTextContent c).1,
      msgId m = some (contentRef c.itemId c.contentIndex)) ∧
    (∀ m ∈ (handleAudioTranscript a).1,
      msgId m = some (contentRef a.itemId a.contentIndex)) ∧
    contentRef "A1" 2 = "A1-2" := by
  refine ⟨?_, ?_, rfl⟩
  · intro m hm
    cases hf : c.fails with
    | true =>
      simp only [handleTextContent, hf, if_true] at hm
      rcases List.mem_map.mp hm with ⟨t, _, rfl⟩
      rfl
    | false =>
      simp [handleTextContent, hf] at hm
      rcases hm with ⟨t, _, rfl⟩ | rfl
      · rfl
      · rfl
  · intro m hm
    cases hf : a.transcriptFails with
    | true =>
      simp only [handleAudioTranscript, hf, if_true] at hm
      rcases List.mem_map.mp hm with ⟨t, _, rfl⟩
      rfl
    | false =>
      simp [handleAudioTranscript, hf] at hm
      rcases hm with ⟨t, _, rfl⟩ | rfl
      · rfl
      · rfl

/-- Witness for C9: the single delta of a one-chunk stream of item `A1`,
content index 2, carries id `"A1-2"`. -/
theorem content_reference_stable_across_stream_witness :
    msgId (OutMsg.textDelta (contentRef "A1" 2) "hi") = some (contentRef "A1" 2) :=
  (content_reference_stable_across_stream (RTTextContent.mk "A1" 2 ["hi"] false)
      (RTAudioContent.mk "A1" 2 [] false [] false)).1
    (OutMsg.textDelta (contentRef "A1" 2) "hi")
    (by simp [handleTextContent])

/-- C3: a client text frame that is not valid JSON does not terminate the
session: the error is caught and logged by `handleMessage`, the message is
dropped (upstream-visible state and lifecycle are unchanged), and a
subsequent well-formed `user_message` frame is still forwarded to the
upstream via `sendItem` and triggers `generateResponse`. -/
theorem malformed_json_does_not_terminate_session (beh : UpstreamBehavior)
    (st : SessionState) (s : String) :
    (handleMessage beh st (.text none)).sentAudio = st.sentAudio ∧
    (handleMessage beh st (.text none)).sentItems = st.sentItems ∧
    (handleMessage beh st (.text none)).responseRequests = st.responseRequests ∧
    (handleMessage beh st (.text none)).closed = st.closed ∧
    (handleMessage beh st (.text none)).loggedErrors = st.loggedErrors + 1 ∧
    handleMessage (UpstreamBehavior.mk false false false)
        (handleMessage beh st (.text none))
        (.text (some (Json.obj [("type", Json.str "user_message"), ("text", Json.str s)]))) =
      { handleMessage beh st (.text none) with
        sentItems := (handleMessage beh st (.text none)).sentItems ++ [some (Json.str s)],
        responseRequests := (handleMessage beh st (.text none)).responseRequests + 1 } := by
  refine ⟨rfl, rfl, rfl, rfl, rfl, ?_⟩
  rfl

/-- C4 counterexample: the frame `{"foo": 1}` is valid JSON whose parsed
object is missing the discriminant field `type`, yet decoding does not fail —
it yields the unrecognized sentinel — so "fails iff not valid JSON or missing
the discriminant" is false. -/
theorem decode_missing_discriminant_is_not_error :
    jsGetField (Json.obj [("foo", Json.num 1)]) "type" = .ok none ∧
    decodeFrame (some (Json.obj [("foo", Json.num 1)])) = .ok .unrecognized :=
  ⟨rfl, rfl⟩

/-- C4 (amended): decoding a client text frame fails if and only if the frame
is not valid JSON (`JSON.parse` throws, `MalformedMessage`) or it parses to
JSON `null` (reading the discriminant off `null` throws a TypeError); a
parsed value with an absent, non-string or unknown discriminant is decoded as
the unrecognized sentinel and is not an error. -/
theorem decode_fails_iff_invalid_json_or_null (frame : Option Json) :
    (∃ e, decodeFrame frame = .error e) ↔
      (frame = none ∨ frame = some Json.null) := by
  constructor
  · rintro ⟨e, he⟩
    match frame with
    | none => exact Or.inl rfl
    | some Json.null => exact Or.inr rfl
    | some (Json.bool b) => simp [decodeFrame, jsGetField] at he
    | some (Json.num n) => simp [decodeFrame, jsGetField] at he
    | some (Json.str s) => simp [decodeFrame, jsGetField] at he
    | some (Json.arr elems) => simp [decodeFrame, jsGetField] at he
    | some (Json.obj fields) =>
      exfalso
      simp only [decodeFrame, jsGetField] at he
      rcases hl : fields.lookup "type" with _ | v
      · rw [hl] at he
        exact Except.noConfusion he
      · rw [hl] at he
        match v with
        | Json.null => exact Except.noConfusion he
        | Json.bool b => exact Except.noConfusion he
        | Json.num n => exact Except.noConfusion he
        | Json.arr elems => exact Except.noConfusion he
        | Json.obj fields2 => exact Except.noConfusion he
        | Json.str s =>
          by_cases hs : s = "user_message" <;> simp [hs] at he
  · rintro (rfl | rfl)
    · exact ⟨.malformedMessage, rfl⟩
    · exact ⟨.typeError, rfl⟩

/-- C5 counterexample: a `user_message` whose upstream `sendItem` call fails
does not make the session transition to Closing — after the failure the
session is still not closed, the error was merely logged, and the very next
`user_message` whose upstream calls succeed is forwarded to the upstream. -/
theorem upstream_send_failure_is_not_fatal_counterexample :
    (handleMessage (UpstreamBehavior.mk false true false) initialState
        (.text (some (Json.obj [("type", Json.str "user_message"), ("text", Json.str "hello")])))).closed
      = false ∧
    (handleMessage (UpstreamBehavior.mk false true false) initialState
        (.text (some (Json.obj [("type", Json.str "user_message"), ("text", Json.str "hello")])))).loggedErrors
      = 1 ∧
    (handleMessage (UpstreamBehavior.mk false false false)
        (handleMessage (UpstreamBehavior.mk false true false) initialState
          (.text (some (Json.obj [("type", Json.str "user_message"), ("text", Json.str "hello")]))))
        (.text (some (Json.obj [("type", Json.str "user_message"), ("text", Json.str "again")])))).sentItems
      = [some (Json.str "again")] :=
  ⟨rfl, rfl, rfl⟩

/-- C5 (amended): a failure of an upstream send operation (`sendAudio`,
`sendItem` or `generateResponse`) raised while handling a client message
propagates out of the inner handler but is caught by `handleMessage`'s catch
block, which logs it; the session does not transition to Closing and remains
in Active (message handling never changes the lifecycle state, and when
`generateResponse` fails the item has already been forwarded). -/
theorem upstream_send_failure_logged_session_continues (st : SessionState)
    (bytes : List Nat) (t : Json) :
    handleMessage (UpstreamBehavior.mk true false false) st (.binary bytes) =
      { st with loggedErrors := st.loggedErrors + 1 } ∧
    handleMessage (UpstreamBehavior.mk false true false) st
        (.text (some (Json.obj [("type", Json.str "user_message"), ("text", t)]))) =
      { st with loggedErrors := st.loggedErrors + 1 } ∧
    handleMessage (UpstreamBehavior.mk false false true) st
        (.text (some (Json.obj [("type", Json.str "user_message"), ("text", t)]))) =
      { st with sentItems := st.sentItems ++ [some t],
                loggedErrors := st.loggedErrors + 1 } ∧
    (∀ (beh : UpstreamBehavior) (frame : ClientFrame),
      (handleMessage beh st frame).closed = st.closed) := by
  refine ⟨rfl, rfl, rfl, ?_⟩
  intro beh frame
  cases frame with
  | binary bytes2 =>
    simp only [handleMessage, handleBinaryMessage]
    cases beh.sendAudioFails <;> simp
  | text parseOutcome =>
    simp only [handleMessage, handleTextMessage]
    rcases hd : decodeFrame parseOutcome with e | d
    · simp
    · cases d with
      | unrecognized => simp
      | userMessage text =>
        cases beh.sendItemFails with
        | true => simp
        | false =>
          cases beh.generateResponseFails <;> simp

/-- C6 counterexample: when configuring the upstream connection fails, the
session code never calls `client.close()` — the upstream connection is not
released and no Closing transition is performed; the configuration error
simply escapes `initialize`. -/
theorem config_failure_releases_nothing_counterexample :
    (sessionInit true []).upstreamCloseCalled = false ∧
    (sessionInit true []).result = .error .upstreamConfigurationError :=
  ⟨rfl, rfl⟩

/-- C7: for every audio content entry, the binary audio chunks produced by
the upstream appear in the client-observed message sequence as binary frames
with byte-for-byte equal content in the original order (they are exactly the
binary-frame subsequence of any interleaving), while the transcript branch
contributes exactly the ordered `text_delta` messages followed by one
`text_done`, and the audio-frame branch emits no `text_done` at all. -/
theorem audio_frames_bytewise_transcript_done (sched : List Bool) (c : RTAudioContent)
    (h : c.transcriptFails = false) :
    ((handleAudioContent sched c).1.filter isBinaryMsg =
       c.audioChunks.map (fun b => OutMsg.binaryFrame b)) ∧
    ((handleAudioContent sched c).1.filter (fun m => !isBinaryMsg m) =
       c.transcriptChunks.map
           (fun t => OutMsg.textDelta (contentRef c.itemId c.contentIndex) t)
         ++ [OutMsg.textDone (contentRef c.itemId c.contentIndex)]) ∧
    (∀ id, OutMsg.textDone id ∉ (handleAudioChunks c).1) := by
  have htr : (handleAudioTranscript c).1 =
      c.transcriptChunks.map
          (fun t => OutMsg.textDelta (contentRef c.itemId c.contentIndex) t)
        ++ [OutMsg.textDone (contentRef c.itemId c.contentIndex)] := by
    simp [handleAudioTranscript, h]
  have hau : (handleAudioChunks c).1 = c.audioChunks.map (fun b => OutMsg.binaryFrame b) := rfl
  have htrace : (handleAudioContent sched c).1 =
      interleave sched (handleAudioChunks c).1 (handleAudioTranscript c).1 := rfl
  refine ⟨?_, ?_, ?_⟩
  · rw [htrace, htr, hau]
    refine filter_interleave_left _ _ _ _ ?_ ?_
    · intro x hx
      rcases List.mem_map.mp hx with ⟨b, _, rfl⟩
      rfl
    · intro y hy
      rcases List.mem_append.mp hy with hd | hd
      · rcases List.mem_map.mp hd with ⟨t, _, rfl⟩
        rfl
      · simp only [List.mem_singleton] at hd
        subst hd
        rfl
  · rw [htrace, htr, hau]
    refine filter_interleave_right _ _ _ _ ?_ ?_
    · intro x hx
      rcases List.mem_map.mp hx with ⟨b, _, rfl⟩
      rfl
    · intro y hy
      rcases List.mem_append.mp hy with hd | hd
      · rcases List.mem_map.mp hd with ⟨t, _, rfl⟩
        rfl
      · simp only [List.mem_singleton] at hd
        subst hd
        rfl
  · intro id hid
    rw [hau] at hid
    rcases List.mem_map.mp hid with ⟨b, _, hEq⟩
    exact OutMsg.noConfusion hEq

/-- Witness for C7 at a concrete audio entry (one audio chunk, one
transcript fragment) under a concrete interleaving schedule. -/
theorem audio_frames_bytewise_transcript_done_witness :
    (RTAudioContent.mk "A" 1 [[0, 1]] false ["x"] false).transcriptFails = false ∧
    (handleAudioContent [false, true]
        (RTAudioContent.mk "A" 1 [[0, 1]] false ["x"] false)).1.filter isBinaryMsg =
      [[0, 1]].map (fun b => OutMsg.binaryFrame b) :=
  ⟨rfl,
   (audio_frames_bytewise_transcript_done [false, true]
      (RTAudioContent.mk "A" 1 [[0, 1]] false ["x"] false) rfl).1⟩

/-- C10: a text content entry whose chunk sequence yields zero chunks still
produces exactly one `text_done` carrying its Content Reference and no
`text_delta`; likewise an audio content entry whose transcript sequence is
empty: any interleaving of its handler's output contains exactly one
`text_done` with the entry's reference and no `text_delta` with that
reference. -/
theorem empty_chunk_sequence_still_closed (itemId : String) (k : Nat)
    (sched : List Bool) (audioCh : List (List Nat)) (aF : Bool) :
    handleTextContent (RTTextContent.mk itemId k [] false) =
      ([OutMsg.textDone (contentRef itemId k)], .ok ()) ∧
    (handleAudioTranscript (RTAudioContent.mk itemId k audioCh aF [] false)).1 =
      [OutMsg.textDone (contentRef itemId k)] ∧
    (handleAudioContent sched (RTAudioContent.mk itemId k audioCh aF [] false)).1.count
        (OutMsg.textDone (contentRef itemId k)) = 1 ∧
    (∀ d, OutMsg.textDelta (contentRef itemId k) d ∉
      (handleAudioContent sched (RTAudioContent.mk itemId k audioCh aF [] false)).1) := by
  have htrace : (handleAudioContent sched (RTAudioContent.mk itemId k audioCh aF [] false)).1 =
      interleave sched (audioCh.map (fun b => OutMsg.binaryFrame b))
        [OutMsg.textDone (contentRef itemId k)] := rfl
  have hperm := interleave_perm sched (audioCh.map (fun b => OutMsg.binaryFrame b))
      [OutMsg.textDone (contentRef itemId k)]
  refine ⟨rfl, rfl, ?_, ?_⟩
  · rw [htrace, hperm.count_eq]
    rw [List.count_append]
    have hzero : (audioCh.map (fun b => OutMsg.binaryFrame b)).count
        (OutMsg.textDone (contentRef itemId k)) = 0 := by
      refine List.count_eq_zero_of_not_mem ?_
      intro hmem
      rcases List.mem_map.mp hmem with ⟨b, _, hEq⟩
      exact OutMsg.noConfusion hEq
    rw [hzero]
    simp
  · intro d hmem
    rw [htrace] at hmem
    rw [hperm.mem_iff] at hmem
    rcases List.mem_append.mp hmem with hd | hd
    · rcases List.mem_map.mp hd with ⟨b, _, hEq⟩
      exact OutMsg.noConfusion hEq
    · simp only [List.mem_singleton] at hd
      exact OutMsg.noConfusion hd

/-- C6 (amended): if configuring the upstream connection fails during session
initialization, the session never reaches Active — no `connected` control
message is sent and the upstream event loop is not started — and
`initialize` aborts with the unrecoverable configuration error, which escapes
the session code; the upstream connection is not released on this path
(`client.close()` is invoked only by `handleClose`, when the client
connection closes). -/
theorem config_failure_never_reaches_active (events : List UpEvent) (closeFails : Bool) :
    sessionInit true events =
      { msgs := [], eventLoopStarted := false, upstreamCloseCalled := false,
        result := .error .upstreamConfigurationError } ∧
    (handleClose closeFails).upstreamCloseCalled = true :=
  ⟨rfl, rfl⟩

section EventLoopLemmas

/-- In a successful run, `runSeq` delivered every element's messages in
order and every element's handler succeeded. -/
theorem runSeq_ok_msgs (f : α → List OutMsg × Except RelayError Unit) (l : List α)
    (h : (runSeq f l).2 = .ok ()) :
    (runSeq f l).1 = (l.map (fun a => (f a).1)).flatten ∧
    ∀ a ∈ l, (f a).2 = .ok () := by
  induction l with
  | nil => exact ⟨rfl, by simp⟩
  | cons a as ih =>
    cases hfa : (f a).2 with
    | error e =>
      exfalso
      simp only [runSeq, hfa] at h
      exact Except.noConfusion h
    | ok u =>
      cases u
      simp only [runSeq, hfa] at h
      obtain ⟨h1, h2⟩ := ih h
      refine ⟨?_, ?_⟩
      · simp only [runSeq, hfa, List.map_cons, List.flatten_cons, h1]
      · intro b hb
        rcases List.mem_cons.mp hb with rfl | hb
        · exact hfa
        · exact h2 b hb

/-- Every message a (possibly aborted) `runSeq` run delivered came from one
of the processed elements. -/
theorem runSeq_mem (f : α → List OutMsg × Except RelayError Unit) (l : List α)
    (m : OutMsg) (h : m ∈ (runSeq f l).1) : ∃ a ∈ l, m ∈ (f a).1 := by
  induction l with
  | nil => simp [runSeq] at h
  | cons a as ih =>
    cases hfa : (f a).2 with
    | error e =>
      simp only [runSeq, hfa] at h
      exact ⟨a, List.mem_cons_self a as, h⟩
    | ok u =>
      cases u
      simp only [runSeq, hfa] at h
      rcases List.mem_append.mp h with h | h
      · exact ⟨a, List.mem_cons_self a as, h⟩
      · obtain ⟨b, hb, hm⟩ := ih h
        exact ⟨b, List.mem_cons_of_mem a hb, hm⟩

/-- A stream of `text_delta` messages never contains a `text_done`. -/
theorem count_done_map_delta (chunks : List String) (cid ref : String) :
    (chunks.map (fun t => OutMsg.textDelta cid t)).count (OutMsg.textDone ref) = 0 := by
  refine List.count_eq_zero_of_not_mem ?_
  intro hm
  rcases List.mem_map.mp hm with ⟨t, _, hEq⟩
  exact OutMsg.noConfusion hEq

/-- A stream of binary frames never contains a `text_done`. -/
theorem count_done_map_binary (chunks : List (List Nat)) (ref : String) :
    (chunks.map (fun b => OutMsg.binaryFrame b)).count (OutMsg.textDone ref) = 0 := by
  refine List.count_eq_zero_of_not_mem ?_
  intro hm
  rcases List.mem_map.mp hm with ⟨b, _, hEq⟩
  exact OutMsg.noConfusion hEq

/-- A successful text handler run sends exactly one `text_done` for its own
Content Reference and none for any other. -/
theorem handleTextContent_ok_count (c : RTTextContent) (ref : String)
    (h : (handleTextContent c).2 = .ok ()) :
    (handleTextContent c).1.count (OutMsg.textDone ref) =
      if contentRef c.itemId c.contentIndex = ref then 1 else 0 := by
  cases hf : c.fails with
  | true =>
    exfalso
    simp [handleTextContent, hf] at h
  | false =>
    have hout : (handleTextContent c).1 =
        c.chunks.map (fun t => OutMsg.textDelta (contentRef c.itemId c.contentIndex) t)
          ++ [OutMsg.textDone (contentRef c.itemId c.contentIndex)] := by
      simp [handleTextContent, hf]
    rw [hout, List.count_append, count_done_map_delta, List.count_singleton]
    by_cases hc : contentRef c.itemId c.contentIndex = ref
    · simp [hc]
    · simp [hc]

/-- A successful transcript branch sends exactly one `text_done` for its own
Content Reference and none for any other. -/
theorem handleAudioTranscript_ok_count (c : RTAudioContent) (ref : String)
    (h : (handleAudioTranscript c).2 = .ok ()) :
    (handleAudioTranscript c).1.count (OutMsg.textDone ref) =
      if contentRef c.itemId c.contentIndex = ref then 1 else 0 := by
  cases hf : c.transcriptFails with
  | true =>
    exfalso
    simp [handleAudioTranscript, hf] at h
  | false =>
    have hout : (handleAudioTranscript c).1 =
        c.transcriptChunks.map
            (fun t => OutMsg.textDelta (contentRef c.itemId c.contentIndex) t)
          ++ [OutMsg.textDone (contentRef c.itemId c.contentIndex)] := by
      simp [handleAudioTranscript, hf]
    rw [hout, List.count_append, count_done_map_delta, List.count_singleton]
    by_cases hc : contentRef c.itemId c.contentIndex = ref
    · simp [hc]
    · simp [hc]

/-- Every `text_delta` the text handler emits carries its own Content
Reference (whether or not draining succeeded). -/
theorem handleTextContent_delta_ref (c : RTTextContent) (ref d : String)
    (h : OutMsg.textDelta ref d ∈ (handleTextContent c).1) :
    contentRef c.itemId c.contentIndex = ref := by
  cases hf : c.fails with
  | true =>
    have hout : (handleTextContent c).1 =
        c.chunks.map (fun t => OutMsg.textDelta (contentRef c.itemId c.contentIndex) t) := by
      simp [handleTextContent, hf]
    rw [hout] at h
    rcases List.mem_map.mp h with ⟨t, _, hEq⟩
    exact (OutMsg.textDelta.inj hEq).1
  | false =>
    have hout : (handleTextContent c).1 =
        c.chunks.map (fun t => OutMsg.textDelta (contentRef c.itemId c.contentIndex) t)
          ++ [OutMsg.textDone (contentRef c.itemId c.contentIndex)] := by
      simp [handleTextContent, hf]
    rw [hout] at h
    rcases List.mem_append.mp h with hd | hd
    · rcases List.mem_map.mp hd with ⟨t, _, hEq⟩
      exact (OutMsg.textDelta.inj hEq).1
    · simp only [List.mem_singleton] at hd
      exact OutMsg.noConfusion hd

/-- Every `text_delta` the transcript branch emits carries its own Content
Reference (whether or not draining succeeded). -/
theorem handleAudioTranscript_delta_ref (c : RTAudioContent) (ref d : String)
    (h : OutMsg.textDelta ref d ∈ (handleAudioTranscript c).1) :
    contentRef c.itemId c.contentIndex = ref := by
  cases hf : c.transcriptFails with
  | true =>
    have hout : (handleAudioTranscript c).1 =
        c.transcriptChunks.map
          (fun t => OutMsg.textDelta (contentRef c.itemId c.contentIndex) t) := by
      simp [handleAudioTranscript, hf]
    rw [hout] at h
    rcases List.mem_map.mp h with ⟨t, _, hEq⟩
    exact (OutMsg.textDelta.inj hEq).1
  | false =>
    have hout : (handleAudioTranscript c).1 =
        c.transcriptChunks.map
            (fun t => OutMsg.textDelta (contentRef c.itemId c.contentIndex) t)
          ++ [OutMsg.textDone (contentRef c.itemId c.contentIndex)] := by
      simp [handleAudioTranscript, hf]
    rw [hout] at h
    rcases List.mem_append.mp h with hd | hd
    · rcases List.mem_map.mp hd with ⟨t, _, hEq⟩
      exact (OutMsg.textDelta.inj hEq).1
    · simp only [List.mem_singleton] at hd
      exact OutMsg.noConfusion hd

/-- A successful audio handler run sends exactly one `text_done` for its own
Content Reference and none for any other. -/
theorem handleAudioContent_ok_count (sched : List Bool) (c : RTAudioContent) (ref : String)
    (h : (handleAudioContent sched c).2 = .ok ()) :
    (handleAudioContent sched c).1.count (OutMsg.textDone ref) =
      if contentRef c.itemId c.contentIndex = ref then 1 else 0 := by
  have htr : (handleAudioTranscript c).2 = .ok () := by
    cases ha : (handleAudioChunks c).2 with
    | error e =>
      exfalso
      simp only [handleAudioContent, ha] at h
      exact Except.noConfusion h
    | ok u =>
      cases u
      cases ht : (handleAudioTranscript c).2 with
      | error e =>
        exfalso
        simp only [handleAudioContent, ha, ht] at h
        exact Except.noConfusion h
      | ok v =>
        cases v
        rfl
  have htrace : (handleAudioContent sched c).1 =
      interleave sched (handleAudioChunks c).1 (handleAudioTranscript c).1 := rfl
  rw [htrace, (interleave_perm sched _ _).count_eq, List.count_append]
  have h0 : (handleAudioChunks c).1.count (OutMsg.textDone ref) = 0 :=
    count_done_map_binary c.audioChunks ref
  rw [h0, Nat.zero_add]
  exact handleAudioTranscript_ok_count c ref htr

/-- Every `text_delta` in any interleaving produced by the audio handler
carries the entry's Content Reference. -/
theorem handleAudioContent_delta_ref (sched : List Bool) (c : RTAudioContent) (ref d : String)
    (h : OutMsg.textDelta ref d ∈ (handleAudioContent sched c).1) :
    contentRef c.itemId c.contentIndex = ref := by
  have htrace : (handleAudioContent sched c).1 =
      interleave sched (handleAudioChunks c).1 (handleAudioTranscript c).1 := rfl
  rw [htrace, (interleave_perm sched _ _).mem_iff] at h
  rcases List.mem_append.mp h with hd | hd
  · rcases List.mem_map.mp hd with ⟨b, _, hEq⟩
    exact OutMsg.noConfusion hEq
  · exact handleAudioTranscript_delta_ref c ref d hd

end EventLoopLemmas

/-- Counting a reference among a content-entry list's references equals the
sum of per-entry indicator values. -/
theorem count_refs_eq_sum (cs : List ContentEntry) (ref : String) :
    (cs.filterMap entryRef).count ref =
      (cs.map (fun e => if entryRef e = some ref then (1 : Nat) else 0)).sum := by
  induction cs with
  | nil => rfl
  | cons e cs ih =>
    cases he : entryRef e with
    | none =>
      rw [List.filterMap_cons_none he, List.map_cons, List.sum_cons, ih, he]
      simp
    | some v =>
      rw [List.filterMap_cons_some he, List.map_cons, List.sum_cons, he,
        List.count_cons, ih]
      by_cases hv : v = ref
      · simp [hv, Nat.add_comm]
      · simp [hv, Ne.symm hv]

/-- A successfully handled content entry contributes exactly one `text_done`
for its own Content Reference and none for any other. -/
theorem handleContent_ok_count (e : ContentEntry) (ref : String)
    (h : (handleContent e).2 = .ok ()) :
    (handleContent e).1.count (OutMsg.textDone ref) =
      if entryRef e = some ref then 1 else 0 := by
  cases e with
  | text c =>
    rw [show handleContent (.text c) = handleTextContent c from rfl] at h ⊢
    rw [handleTextContent_ok_count c ref h]
    by_cases hc : contentRef c.itemId c.contentIndex = ref
    · simp [entryRef, hc]
    · simp [entryRef, hc]
  | audio sched c =>
    rw [show handleContent (.audio sched c) = handleAudioContent sched c from rfl] at h ⊢
    rw [handleAudioContent_ok_count sched c ref h]
    by_cases hc : contentRef c.itemId c.contentIndex = ref
    · simp [entryRef, hc]
    · simp [entryRef, hc]
  | unknown =>
    simp [handleContent, entryRef]

/-- Every `text_delta` a content entry's handler emits carries that entry's
Content Reference. -/
theorem handleContent_delta_ref (e : ContentEntry) (ref d : String)
    (h : OutMsg.textDelta ref d ∈ (handleContent e).1) :
    entryRef e = some ref := by
  cases e with
  | text c => exact congrArg some (handleTextContent_delta_ref c ref d h)
  | audio sched c => exact congrArg some (handleAudioContent_delta_ref sched c ref d h)
  | unknown => simp [handleContent] at h

/-- A successfully handled item sends one `text_done` per content entry it
carries with the given reference. -/
theorem handleItem_ok_count (it : RTItem) (ref : String)
    (h : (handleItem it).2 = .ok ()) :
    (handleItem it).1.count (OutMsg.textDone ref) =
      ((itemEntries it).filterMap entryRef).count ref := by
  cases it with
  | other => rfl
  | message cs =>
    obtain ⟨h1, h2⟩ := runSeq_ok_msgs handleContent cs h
    rw [show (handleItem (.message cs)).1 = (runSeq handleContent cs).1 from rfl, h1]
    rw [List.count_flatten, List.map_map]
    rw [show itemEntries (.message cs) = cs from rfl, count_refs_eq_sum]
    congr 1
    refine List.map_congr_left ?_
    intro e he
    exact handleContent_ok_count e ref (h2 e he)

/-- A successfully handled upstream event sends one `text_done` per content
entry it carries with the given reference. -/
theorem handleEvent_ok_count (ev : UpEvent) (ref : String)
    (h : (handleEvent ev).2 = .ok ()) :
    (handleEvent ev).1.count (OutMsg.textDone ref) =
      ((eventEntries ev).filterMap entryRef).count ref := by
  cases ev with
  | inputAudio event =>
    cases hw : event.waitFails <;>
      simp [handleEvent, handleInputAudio, hw, eventEntries, List.count_cons]
  | response items =>
    obtain ⟨h1, h2⟩ := runSeq_ok_msgs handleItem items h
    rw [show (handleEvent (.response items)).1 = (runSeq handleItem items).1 from rfl, h1]
    rw [List.count_flatten, List.map_map]
    rw [show eventEntries (.response items) = items.flatMap itemEntries from rfl]
    rw [List.flatMap_def, List.filterMap_flatten, List.map_map, List.count_flatten,
      List.map_map]
    congr 1
    refine List.map_congr_left ?_
    intro it hit
    exact handleItem_ok_count it ref (h2 it hit)

/-- In a successful event-loop run, the number of `text_done` messages sent
for a reference equals that reference's multiplicity among the session's
Content References. -/
theorem startEventLoop_ok_count (events : List UpEvent) (ref : String)
    (h : (startEventLoop events).2 = .ok ()) :
    (startEventLoop events).1.count (OutMsg.textDone ref) =
      (sessionRefs events).count ref := by
  obtain ⟨h1, h2⟩ := runSeq_ok_msgs handleEvent events h
  rw [show (startEventLoop events).1 = (runSeq handleEvent events).1 from rfl, h1]
  rw [List.count_flatten, List.map_map]
  rw [sessionRefs, List.flatMap_def, List.filterMap_flatten, List.map_map,
    List.count_flatten, List.map_map]
  congr 1
  refine List.map_congr_left ?_
  intro ev hev
  exact handleEvent_ok_count ev ref (h2 ev hev)

/-- A `text_delta` the event loop delivered names one of the session's
Content References. -/
theorem startEventLoop_delta_ref_mem (events : List UpEvent) (ref d : String)
    (h : OutMsg.textDelta ref d ∈ (startEventLoop events).1) :
    ref ∈ sessionRefs events := by
  obtain ⟨ev, hev, hm⟩ := runSeq_mem handleEvent events _ h
  cases ev with
  | inputAudio event =>
    exfalso
    cases hw : event.waitFails <;> simp [handleEvent, handleInputAudio, hw] at hm
  | response items =>
    obtain ⟨it, hit, hm2⟩ := runSeq_mem handleItem items _ hm
    cases it with
    | other => simp [handleItem, runSeq] at hm2
    | message cs =>
      obtain ⟨e, he, hm3⟩ := runSeq_mem handleContent cs _ hm2
      have href : entryRef e = some ref := handleContent_delta_ref e ref d hm3
      rw [sessionRefs]
      refine List.mem_filterMap.mpr ⟨e, ?_, href⟩
      refine List.mem_flatMap.mpr ⟨.response items, hev, ?_⟩
      rw [show eventEntries (.response items) = items.flatMap itemEntries from rfl]
      exact List.mem_flatMap.mpr ⟨.message cs, hit, he⟩

/-- C1: for every content stream for which the session sent at least one
`text_delta` (the stream was opened), provided the upstream keeps Content
References of distinct streams distinct, the client receives exactly one
`text_done` control message bearing that stream's Content Reference, or the
event loop aborts with an error that escapes the session code — the session
terminates abnormally (abrupt close) rather than leaving the stream open
with further messages possible. -/
theorem opened_stream_gets_one_done_or_abrupt_close (events : List UpEvent)
    (hnodup : (sessionRefs events).Nodup) (ref d : String)
    (hopen : OutMsg.textDelta ref d ∈ (startEventLoop events).1) :
    (startEventLoop events).1.count (OutMsg.textDone ref) = 1 ∨
    ∃ e, (startEventLoop events).2 = .error e := by
  cases hres : (startEventLoop events).2 with
  | error e => exact Or.inr ⟨e, rfl⟩
  | ok u =>
    cases u
    left
    rw [startEventLoop_ok_count events ref hres]
    exact List.count_eq_one_of_mem hnodup (startEventLoop_delta_ref_mem events ref d hopen)

/-- Witness for C1: a session with one response event carrying one text
content entry with one chunk; its stream is opened and receives exactly one
`text_done`. -/
theorem opened_stream_gets_one_done_or_abrupt_close_witness :
    (sessionRefs [UpEvent.response [RTItem.message
        [ContentEntry.text (RTTextContent.mk "A" 0 ["hi"] false)]]]).Nodup ∧
    OutMsg.textDelta "A-0" "hi" ∈
      (startEventLoop [UpEvent.response [RTItem.message
        [ContentEntry.text (RTTextContent.mk "A" 0 ["hi"] false)]]]).1 ∧
    ((startEventLoop [UpEvent.response [RTItem.message
        [ContentEntry.text (RTTextContent.mk "A" 0 ["hi"] false)]]]).1.count
        (OutMsg.textDone "A-0") = 1 ∨
      ∃ e, (startEventLoop [UpEvent.response [RTItem.message
        [ContentEntry.text (RTTextContent.mk "A" 0 ["hi"] false)]]]).2 = .error e) :=
  ⟨by decide, by decide,
   opened_stream_gets_one_done_or_abrupt_close
     [UpEvent.response [RTItem.message
       [ContentEntry.text (RTTextContent.mk "A" 0 ["hi"] false)]]]
     (by decide) "A-0" "hi" (by decide)⟩

/-- Witness for C3 at a concrete session state and a concrete follow-up
message. -/
theorem malformed_json_does_not_terminate_session_witness :
    (handleMessage (UpstreamBehavior.mk false false false) initialState
      (.text none)).loggedErrors = initialState.loggedErrors + 1 :=
  (malformed_json_does_not_terminate_session (UpstreamBehavior.mk false false false)
    initialState "hello").2.2.2.2.1

/-- Witness for C4 (amended) at the concrete invalid-JSON frame. -/
theorem decode_fails_iff_invalid_json_or_null_witness :
    (∃ e, decodeFrame none = .error e) ↔
      ((none : Option Json) = none ∨ (none : Option Json) = some Json.null) :=
  decode_fails_iff_invalid_json_or_null none

/-- Witness for C5 (amended) at a concrete state and frame. -/
theorem upstream_send_failure_logged_session_continues_witness :
    handleMessage (UpstreamBehavior.mk true false false) initialState (.binary [1]) =
      { initialState with loggedErrors := initialState.loggedErrors + 1 } :=
  (upstream_send_failure_logged_session_continues initialState [1] (Json.str "x")).1

/-- Witness for C6 (amended) at a concrete event list. -/
theorem config_failure_never_reaches_active_witness :
    sessionInit true [] =
      { msgs := [], eventLoopStarted := false, upstreamCloseCalled := false,
        result := .error .upstreamConfigurationError } :=
  (config_failure_never_reaches_active [] false).1

/-- Witness for C10 at a concrete empty text content entry. -/
theorem empty_chunk_sequence_still_closed_witness :
    handleTextContent (RTTextContent.mk "A" 0 [] false) =
      ([OutMsg.textDone (contentRef "A" 0)], .ok ()) :=
  (empty_chunk_sequence_still_closed "A" 0 [] [] false).1
